import Mathlib

/-!
Verification development for the audio-quality evaluator.

The source is a Python pipeline (src/app.py, src/evaluator.py) that turns a
mono sample buffer into four metrics (LUFS, loudness range, interruption
ratio, SRMR-like intelligibility) and an acceptability verdict per metric.

Embedding conventions:
  * samples and all metric values are rationals (the real-arithmetic
    idealisation of the float pipeline);
  * the external library primitives (pyloudnorm integrated loudness,
    librosa STFT followed by amplitude_to_db, scipy Hilbert envelope,
    numpy rfft magnitude) are taken as explicit function parameters, since
    they are third-party collaborators, not code of this repository:
      IL    : integrated loudness of a sample slice (pyln.Meter.integrated_loudness)
      db    : flattened dB spectrogram bins of the signal
              (librosa.stft composed with librosa.amplitude_to_db and flattening)
      he    : Hilbert envelope of a frame (np.abs of scipy.signal.hilbert)
      rm    : magnitude spectrum of an envelope (np.abs of np.fft.rfft);
  * Python round(x, d) is modelled by rounding x * 10 ^ d to the nearest
    integer; exact ties round half-up here where Python rounds half-even,
    a divergence only visible at exact ties, on which no claim depends;
  * library calls that raise for malformed input are modelled with Except
    (librosa.util.frame raises for input shorter than one frame).
-/

namespace AudioQuality

/-- Python range(0, stop, step) for a possibly negative stop and a natural
step: the list [0, step, 2*step, ...] of offsets strictly below stop.
Empty when stop is not positive. (Python raises for step = 0; the claims
only use a positive step, and this embedding returns [] there.) -/
def pyRange (stop : ℤ) (step : ℕ) : List ℕ :=
  if 0 < step then
    (List.range ((stop.toNat + step - 1) / step)).map (· * step)
  else []

/-- Python slice l[i : i + n]. -/
def slice (l : List ℚ) (i n : ℕ) : List ℚ :=
  (l.drop i).take n

/-- np.percentile with the default linear-interpolation semantics: sort the
values, locate the fractional rank h = q / 100 * (n - 1), and interpolate
linearly between the two neighbouring order statistics. -/
def percentile (v : List ℚ) (q : ℚ) : ℚ :=
  let s := List.insertionSort (· ≤ ·) v
  let n := s.length
  let h : ℚ := q / 100 * (n - 1)
  let lo : ℕ := ⌊h⌋.toNat
  let w : ℚ := h - lo
  s.getD lo 0 + w * (s.getD (min (lo + 1) (n - 1)) 0 - s.getD lo 0)

/-- check_loudness from src/app.py: integrated loudness of the whole signal,
and loudness range as the difference between the 95th and 10th percentile of
per-window integrated loudness over 3-second windows with a 1-second hop,
where the window offsets are Python range(0, len - window_length, hop_size);
0.0 when no window was collected. IL stands for the external
pyln.Meter.integrated_loudness. -/
def check_loudness (IL : List ℚ → ℚ) (audio : List ℚ) (sr : ℕ) : ℚ × ℚ :=
  let lufs := IL audio
  let window_length := 3 * sr
  let hop_size := sr
  let loudness_values :=
    (pyRange ((audio.length : ℤ) - window_length) hop_size).map
      (fun i => IL (slice audio i window_length))
  let lra :=
    if loudness_values = [] then 0
    else percentile loudness_values 95 - percentile loudness_values 10
  (lufs, lra)

/-- check_interruptions from src/app.py: the dB spectrogram bins come from
the external librosa.stft (n_fft 1024) composed with amplitude_to_db
(ref max), modelled by the parameter db; the result is the count of bins
strictly above the mean dB value, divided by the total bin count. The
sample-rate argument is unused, as in the source. -/
def check_interruptions (db : List ℚ → List ℚ) (audio : List ℚ) (sr : ℕ) : ℚ :=
  let power_db := db audio
  let mean_power := power_db.sum / power_db.length
  let above_mean := power_db.countP (fun v => decide (mean_power < v))
  (above_mean : ℚ) / power_db.length

/-- Error kinds for the analysis. The spec demands an InvalidInput kind for
empty buffers and non-positive sample rates; analyzerError models an
exception escaping from a library call inside an analyzer. -/
inductive AnalysisError where
  | invalidInput : AnalysisError
  | analyzerError : String → AnalysisError
deriving DecidableEq, Repr

/-- librosa.util.frame (modelled from the documented librosa behaviour,
which the repository calls): raises for a signal shorter than one frame;
otherwise returns the frames at offsets 0, hop, 2*hop, ..., each of
frame_length samples, discarding any trailing samples that do not fill a
frame: 1 + (len - frame_length) / hop frames in total. -/
def librosaFrame (x : List ℚ) (frame_length hop : ℕ) :
    Except AnalysisError (List (List ℚ)) :=
  if x.length < frame_length then
    .error (.analyzerError "librosa.util.frame: input too short")
  else
    .ok ((List.range (1 + (x.length - frame_length) / hop)).map
      (fun k => slice x (k * hop) frame_length))

/-- estimate_srmr_intelligibility from src/app.py: frame the signal with
frame length 1024 and hop 512; per frame take the Hilbert envelope (he),
its magnitude spectrum (rm), and the ratio of the spectrum sum over bin
indices 4 to 19 inclusive (Python slice [4:20]) to the total spectrum sum
plus 1e-6; return the mean ratio. The sample-rate argument is unused, as
in the source. -/
def estimate_srmr_intelligibility (he rm : List ℚ → List ℚ)
    (audio : List ℚ) (sr : ℕ) : Except AnalysisError ℚ :=
  match librosaFrame audio 1024 512 with
  | .error e => .error e
  | .ok frames =>
    let modulation_energies := frames.map (fun frame =>
      let envelope := he frame
      let modulation_spectrum := rm envelope
      ((modulation_spectrum.drop 4).take 16).sum /
        (modulation_spectrum.sum + 1 / 1000000))
    .ok (modulation_energies.sum / modulation_energies.length)

/-- Python round(x, d): round x * 10 ^ d to the nearest integer and scale
back (ties round half-up here, see the file header). -/
def roundTo (d : ℕ) (x : ℚ) : ℚ :=
  ((⌊x * 10 ^ d + 1 / 2⌋ : ℤ) : ℚ) / 10 ^ d

/-- One metric entry of the report: the rounded value and the verdict. -/
structure MetricResult where
  value : ℚ
  acceptable : Bool
deriving DecidableEq, Repr

/-- The report assembled by analyze_audio, one entry per metric, in the
order of the source dictionary. -/
structure AnalysisReport where
  lufs : MetricResult
  lufsRange : MetricResult
  interruptions : MetricResult
  srmr : MetricResult
deriving DecidableEq, Repr

/-- analyze_audio from src/app.py, after decoding (load_mp3_as_mono is the
out-of-scope decoder collaborator): run the three analyzers on the decoded
signal and assemble the report; each verdict compares the unrounded metric
value against the fixed thresholds, each reported value is the rounded
metric value. A library exception escaping an analyzer aborts the run. -/
def analyze_audio (IL : List ℚ → ℚ) (db he rm : List ℚ → List ℚ)
    (audio : List ℚ) (sr : ℕ) : Except AnalysisError AnalysisReport :=
  let lufsLra := check_loudness IL audio sr
  let lufs := lufsLra.1
  let lra := lufsLra.2
  let interruptions := check_interruptions db audio sr
  match estimate_srmr_intelligibility he rm audio sr with
  | .error e => .error e
  | .ok srmr_intel =>
    .ok
      { lufs := ⟨roundTo 2 lufs, decide (-27 < lufs ∧ lufs < -17)⟩
        lufsRange := ⟨roundTo 2 lra, decide (lra < 5)⟩
        interruptions := ⟨roundTo 3 interruptions,
          decide ((0.2 : ℚ) < interruptions)⟩
        srmr := ⟨roundTo 2 srmr_intel, decide ((3.5 : ℚ) < srmr_intel)⟩ }

/-- Whether an analysis outcome is an InvalidInput failure. -/
def isInvalidInputResult : Except AnalysisError AnalysisReport → Bool
  | .error .invalidInput => true
  | _ => false

/-- The per-window loudness values over all complete 3-second windows at
1-second hop offsets: the window set named by the loudness-range claim. -/
def allWindowLoudness (IL : List ℚ → ℚ) (audio : List ℚ) (sr : ℕ) : List ℚ :=
  ((List.range audio.length).filter
    (fun k => decide (k * sr + 3 * sr ≤ audio.length))).map
    (fun k => IL (slice audio (k * sr) (3 * sr)))

/-- The loudness range the claim describes: 95th minus 10th percentile of
the per-window loudness over all complete windows. -/
def lraAllWindows (IL : List ℚ → ℚ) (audio : List ℚ) (sr : ℕ) : ℚ :=
  percentile (allWindowLoudness IL audio sr) 95
    - percentile (allWindowLoudness IL audio sr) 10

/-- The per-window loudness values over the windows the code iterates:
all complete windows except the final one at offset len - 3 * sr, because
Python range(0, len - window_length, hop) stops strictly before its stop
argument. -/
def codeWindowLoudness (IL : List ℚ → ℚ) (audio : List ℚ) (sr : ℕ) : List ℚ :=
  ((List.range audio.length).filter
    (fun k => decide (k * sr + 3 * sr < audio.length))).map
    (fun k => IL (slice audio (k * sr) (3 * sr)))

/- Helper lemmas -/

lemma countP_replicate (p : ℚ → Bool) (n : ℕ) (a : ℚ) :
    List.countP p (List.replicate n a) = if p a then n else 0 := by
  induction n with
  | zero => simp
  | succ n ih =>
    rw [List.replicate_succ, List.countP_cons, ih]
    by_cases h : p a <;> simp [h]

lemma filter_range_eq_range_min (p : ℕ → Bool) (m : ℕ)
    (hp : ∀ k, p k = true ↔ k < m) (n : ℕ) :
    (List.range n).filter p = List.range (min m n) := by
  induction n with
  | zero => simp
  | succ n ih =>
    rw [List.range_succ, List.filter_append, ih]
    by_cases hn : n < m
    · have h1 : p n = true := (hp n).mpr hn
      have h2 : min m (n + 1) = n + 1 := by omega
      have h3 : min m n = n := by omega
      rw [h2, h3, List.range_succ]
      simp [h1]
    · have h1 : p n = false := by
        cases h : p n
        · rfl
        · exact absurd ((hp n).mp h) hn
      have h2 : min m (n + 1) = min m n := by omega
      rw [h2]
      simp [h1]

lemma lt_ceil_div_iff (k m sr : ℕ) (hsr : 0 < sr) (hm : 0 < m) :
    k < (m + sr - 1) / sr ↔ k * sr < m := by
  rw [Nat.lt_iff_add_one_le, Nat.le_div_iff_mul_le hsr, add_mul, one_mul]
  generalize k * sr = a
  omega

lemma pyRange_loudness_offsets (len sr : ℕ) (hsr : 0 < sr)
    (hlen : 3 * sr < len) :
    pyRange ((len : ℤ) - (3 * sr : ℕ)) sr
      = ((List.range len).filter
          (fun k => decide (k * sr + 3 * sr < len))).map (· * sr) := by
  have htn : ((len : ℤ) - (3 * sr : ℕ)).toNat = len - 3 * sr := by omega
  have hiff : ∀ k, (decide (k * sr + 3 * sr < len)) = true
      ↔ k < (len - 3 * sr + sr - 1) / sr := by
    intro k
    simp only [decide_eq_true_eq]
    rw [lt_ceil_div_iff k (len - 3 * sr) sr hsr (by omega)]
    generalize k * sr = a
    omega
  have hmin : min ((len - 3 * sr + sr - 1) / sr) len
      = (len - 3 * sr + sr - 1) / sr := by
    have h1 := Nat.div_le_self (len - 3 * sr + sr - 1) sr
    omega
  unfold pyRange
  rw [if_pos hsr, htn, filter_range_eq_range_min _ _ hiff len, hmin]

/-- C4: a signal shorter than one 3-second window yields loudness range
exactly 0, for any integrated-loudness primitive and any content. -/
theorem C4_short_signal_lra_zero (IL : List ℚ → ℚ) (audio : List ℚ) (sr : ℕ)
    (hlen : audio.length < 3 * sr) :
    (check_loudness IL audio sr).2 = 0 := by
  have h : pyRange ((audio.length : ℤ) - (3 * sr : ℕ)) sr = [] := by
    unfold pyRange
    split
    · have h1 : ((audio.length : ℤ) - (3 * sr : ℕ)).toNat = 0 := by omega
      rw [h1]
      have h2 : (0 + sr - 1) / sr = 0 := Nat.div_eq_of_lt (by omega)
      rw [h2]
      rfl
    · rfl
  unfold check_loudness
  simp only [h]
  simp

/-- C4 witness: the two-sample signal [1, 2] at sample rate 1 is shorter
than one window and gets loudness range 0. -/
theorem C4_short_signal_lra_zero_witness :
    ([(1 : ℚ), 2].length < 3 * 1)
      ∧ (check_loudness (fun l => l.sum + 5) [(1 : ℚ), 2] 1).2 = 0 :=
  ⟨by norm_num, C4_short_signal_lra_zero (fun l => l.sum + 5) [(1 : ℚ), 2] 1
    (by norm_num)⟩

/-- C3 (amended): for a signal strictly longer than one 3-second window,
the loudness range returned by check_loudness is the 95th minus the 10th
percentile (linear interpolation) of the per-window integrated loudness
over the 1-second-hop windows the code iterates, namely every complete
window except the final one at offset length - 3 * sample_rate. -/
theorem C3_loudness_range (IL : List ℚ → ℚ) (audio : List ℚ) (sr : ℕ)
    (hsr : 0 < sr) (hlen : 3 * sr < audio.length) :
    (check_loudness IL audio sr).2
      = percentile (codeWindowLoudness IL audio sr) 95
        - percentile (codeWindowLoudness IL audio sr) 10 := by
  have hoff := pyRange_loudness_offsets audio.length sr hsr hlen
  have hvals : (pyRange ((audio.length : ℤ) - (3 * sr : ℕ)) sr).map
      (fun i => IL (slice audio i (3 * sr))) = codeWindowLoudness IL audio sr := by
    rw [hoff, List.map_map]
    rfl
  have hne : codeWindowLoudness IL audio sr ≠ [] := by
    unfold codeWindowLoudness
    have h0 : 0 ∈ (List.range audio.length).filter
        (fun k => decide (k * sr + 3 * sr < audio.length)) := by
      rw [List.mem_filter]
      refine ⟨List.mem_range.mpr (by omega), ?_⟩
      simp only [decide_eq_true_eq]
      omega
    intro hX
    rw [List.map_eq_nil_iff] at hX
    rw [hX] at h0
    simp at h0
  unfold check_loudness
  simp only [hvals]
  simp [hne]

/-- C3 witness for the amended statement: a five-sample signal at sample
rate 1 with per-window loudness given by the slice sum: the code iterates
the windows at offsets 0 and 1 and returns 51/20. -/
theorem C3_loudness_range_witness :
    (0 < 1 ∧ 3 * 1 < ([(1 : ℚ), 2, 3, 4, 5]).length)
      ∧ (check_loudness (fun l => l.sum) [(1 : ℚ), 2, 3, 4, 5] 1).2
          = percentile (codeWindowLoudness (fun l => l.sum) [(1 : ℚ), 2, 3, 4, 5] 1) 95
            - percentile (codeWindowLoudness (fun l => l.sum) [(1 : ℚ), 2, 3, 4, 5] 1) 10 :=
  ⟨⟨by norm_num, by norm_num⟩,
    C3_loudness_range (fun l => l.sum) [(1 : ℚ), 2, 3, 4, 5] 1
      (by norm_num) (by norm_num)⟩

/-- C3 counterexample: the signal [0, 0, 0, 1] at sample rate 1 contains at
least one complete window, yet the loudness range returned by the code (0)
differs from the 95th-minus-10th-percentile value over the per-window
loudness of all complete 3-second windows at 1-second hop (17/20, with the
slice sum as the integrated-loudness primitive): the code drops the final
complete window at offset length - 3 * sample_rate. -/
theorem C3_counterexample :
    3 * 1 ≤ ([(0 : ℚ), 0, 0, 1]).length
      ∧ (check_loudness (fun l => l.sum) [(0 : ℚ), 0, 0, 1] 1).2 = 0
      ∧ lraAllWindows (fun l => l.sum) [(0 : ℚ), 0, 0, 1] 1 = 17 / 20
      ∧ (0 : ℚ) ≠ 17 / 20 := by
  refine ⟨by norm_num, ?_, ?_, by norm_num⟩
  · norm_num [check_loudness, pyRange, slice, percentile,
      List.insertionSort, List.orderedInsert]
  · norm_num [lraAllWindows, allWindowLoudness, slice, percentile,
      List.insertionSort, List.orderedInsert, List.range_succ]

/-- The per-frame modulation energy ratio the intelligibility claim
describes: spectrum sum over bin indices 4 to 19 inclusive divided by the
total spectrum sum plus the small epsilon, from the same envelope and
spectrum primitives the code uses. -/
def frameModulationRatio (he rm : List ℚ → List ℚ) (frame : List ℚ) : ℚ :=
  (((rm (he frame)).drop 4).take 16).sum / ((rm (he frame)).sum + 1 / 1000000)

/-- All complete 1024-sample frames at 512-sample hop offsets, any trailing
partial frame discarded: the frame set the intelligibility claim names. -/
def allFrames (audio : List ℚ) : List (List ℚ) :=
  ((List.range audio.length).filter
    (fun k => decide (k * 512 + 1024 ≤ audio.length))).map
    (fun k => slice audio (k * 512) 1024)

lemma srmr_frames_eq (len : ℕ) (h : 1024 ≤ len) :
    (List.range len).filter (fun k => decide (k * 512 + 1024 ≤ len))
      = List.range (1 + (len - 1024) / 512) := by
  have h512 : (0 : ℕ) < 512 := by norm_num
  have hiff : ∀ k, (decide (k * 512 + 1024 ≤ len)) = true
      ↔ k < 1 + (len - 1024) / 512 := by
    intro k
    simp only [decide_eq_true_eq]
    constructor
    · intro hk
      have hk2 : k ≤ (len - 1024) / 512 := by
        rw [Nat.le_div_iff_mul_le h512]
        omega
      omega
    · intro hk
      have hk2 : k ≤ (len - 1024) / 512 := by omega
      rw [Nat.le_div_iff_mul_le h512] at hk2
      omega
  rw [filter_range_eq_range_min _ _ hiff len]
  have hle : 1 + (len - 1024) / 512 ≤ len := by
    have h2 := Nat.div_le_self (len - 1024) 512
    omega
  rw [min_eq_left hle]

/-- C5: for a signal long enough to form at least one frame, the
intelligibility estimate is the arithmetic mean, over all complete frames
of length 1024 at hop 512 with the trailing partial frame discarded, of
the per-frame modulation energy ratio: spectrum sum over bins 4 to 19
inclusive divided by the total spectrum sum plus the epsilon. -/
theorem C5_srmr_mean_of_frame_ratios (he rm : List ℚ → List ℚ)
    (audio : List ℚ) (sr : ℕ) (h : 1024 ≤ audio.length) :
    estimate_srmr_intelligibility he rm audio sr
      = .ok (((allFrames audio).map (frameModulationRatio he rm)).sum
          / ((allFrames audio).map (frameModulationRatio he rm)).length) := by
  unfold estimate_srmr_intelligibility librosaFrame
  rw [if_neg (by omega)]
  unfold allFrames
  rw [srmr_frames_eq audio.length h]
  rfl

/-- C5 witness: a 1536-sample signal forms at least one frame and the
estimate is the mean of the per-frame ratios. -/
theorem C5_srmr_mean_of_frame_ratios_witness :
    (1024 ≤ (List.replicate 1536 (0 : ℚ)).length)
      ∧ estimate_srmr_intelligibility (fun _ => [(1 : ℚ)]) (fun l => l)
          (List.replicate 1536 (0 : ℚ)) 8000
        = .ok (((allFrames (List.replicate 1536 (0 : ℚ))).map
            (frameModulationRatio (fun _ => [(1 : ℚ)]) (fun l => l))).sum
          / ((allFrames (List.replicate 1536 (0 : ℚ))).map
            (frameModulationRatio (fun _ => [(1 : ℚ)]) (fun l => l))).length) :=
  ⟨by rw [List.length_replicate]; norm_num,
    C5_srmr_mean_of_frame_ratios (fun _ => [(1 : ℚ)]) (fun l => l)
      (List.replicate 1536 (0 : ℚ)) 8000
      (by rw [List.length_replicate]; norm_num)⟩

/-- C6: a signal too short to form one 1024-sample frame makes the
intelligibility estimator fail with the framing-library error rather than
return the sentinel 0.0 the spec demands (and absent the library guard,
the mean of the empty ratio list would be 0/0, the NaN case). -/
theorem C6_short_signal_frame_error (he rm : List ℚ → List ℚ)
    (audio : List ℚ) (sr : ℕ) (hlen : audio.length < 1024) :
    estimate_srmr_intelligibility he rm audio sr
      = .error (.analyzerError "librosa.util.frame: input too short") := by
  unfold estimate_srmr_intelligibility librosaFrame
  rw [if_pos hlen]

/-- C6 witness: a 512-sample buffer of zeros at 44100 Hz hits the framing
error. -/
theorem C6_short_signal_frame_error_witness :
    ((List.replicate 512 (0 : ℚ)).length < 1024)
      ∧ estimate_srmr_intelligibility (fun l => l) (fun l => l)
          (List.replicate 512 (0 : ℚ)) 44100
        = .error (.analyzerError "librosa.util.frame: input too short") :=
  ⟨by rw [List.length_replicate]; norm_num,
    C6_short_signal_frame_error (fun l => l) (fun l => l)
      (List.replicate 512 (0 : ℚ)) 44100
      (by rw [List.length_replicate]; norm_num)⟩

/-- C7: for a non-degenerate input (the spectrogram has at least one bin),
the interruption detector returns the count of bins strictly above the
mean dB value divided by the total bin count, and that ratio lies in
[0, 1]. -/
theorem C7_interruption_ratio (db : List ℚ → List ℚ) (audio : List ℚ)
    (sr : ℕ) (hne : db audio ≠ []) :
    check_interruptions db audio sr
        = ((db audio).countP
            (fun v => decide ((db audio).sum / (db audio).length < v)) : ℚ)
          / (db audio).length
      ∧ 0 ≤ check_interruptions db audio sr
      ∧ check_interruptions db audio sr ≤ 1 := by
  have hlen : 0 < (db audio).length := List.length_pos.mpr hne
  have hlenq : (0 : ℚ) < (db audio).length := by exact_mod_cast hlen
  refine ⟨rfl, ?_, ?_⟩
  · unfold check_interruptions
    apply div_nonneg (Nat.cast_nonneg _) (Nat.cast_nonneg _)
  · unfold check_interruptions
    rw [div_le_one hlenq]
    exact_mod_cast List.countP_le_length _

/-- C7 witness: three bins [1, 2, 4] with mean 7/3 give ratio 1/3. -/
theorem C7_interruption_ratio_witness :
    ((fun (_ : List ℚ) => [(1 : ℚ), 2, 4]) [(0 : ℚ)] ≠ [])
      ∧ 0 ≤ check_interruptions (fun _ => [(1 : ℚ), 2, 4]) [(0 : ℚ)] 16000
      ∧ check_interruptions (fun _ => [(1 : ℚ), 2, 4]) [(0 : ℚ)] 16000 ≤ 1 := by
  have h1 : (fun (_ : List ℚ) => [(1 : ℚ), 2, 4]) [(0 : ℚ)] ≠ [] := by simp
  have h2 := C7_interruption_ratio (fun _ => [(1 : ℚ), 2, 4]) [(0 : ℚ)] 16000 h1
  exact ⟨h1, h2.2.1, h2.2.2⟩

/-- C8: the intelligibility score is non-negative whenever a score is
returned, for any envelope primitive and any spectrum primitive whose
outputs are non-negative (they are magnitudes in the source). -/
theorem C8_srmr_nonneg (he rm : List ℚ → List ℚ) (audio : List ℚ)
    (sr : ℕ) (r : ℚ) (hrm : ∀ l v, v ∈ rm l → 0 ≤ v)
    (h : estimate_srmr_intelligibility he rm audio sr = .ok r) : 0 ≤ r := by
  unfold estimate_srmr_intelligibility librosaFrame at h
  by_cases hlen : audio.length < 1024
  · rw [if_pos hlen] at h
    exact absurd h (by simp)
  · rw [if_neg hlen] at h
    simp only [Except.ok.injEq] at h
    subst h
    apply div_nonneg _ (Nat.cast_nonneg _)
    apply List.sum_nonneg
    intro x hx
    rw [List.mem_map] at hx
    obtain ⟨frame, hmem, rfl⟩ := hx
    have hsum : 0 ≤ (rm (he frame)).sum :=
      List.sum_nonneg (fun y hy => hrm _ y hy)
    apply div_nonneg
    · apply List.sum_nonneg
      intro y hy
      exact hrm _ y (List.mem_of_mem_drop (List.mem_of_mem_take hy))
    · linarith

/-- C8 witness: with a constant spectrum [2], the 1024-sample zero signal
gets score 0, and 0 is non-negative. -/
theorem C8_srmr_nonneg_witness :
    (∀ l v, v ∈ (fun (_ : List ℚ) => [(2 : ℚ)]) l → 0 ≤ v)
      ∧ estimate_srmr_intelligibility (fun _ => []) (fun _ => [(2 : ℚ)])
          (List.replicate 1024 (0 : ℚ)) 8000 = .ok 0
      ∧ (0 : ℚ) ≤ 0 := by
  have h1 : ∀ l v, v ∈ (fun (_ : List ℚ) => [(2 : ℚ)]) l → 0 ≤ v := by
    intro l v hv
    simp only [List.mem_singleton] at hv
    rw [hv]
    norm_num
  have h2 : estimate_srmr_intelligibility (fun _ => []) (fun _ => [(2 : ℚ)])
      (List.replicate 1024 (0 : ℚ)) 8000 = .ok 0 := by
    norm_num [estimate_srmr_intelligibility, librosaFrame, List.range_succ]
  exact ⟨h1, h2, C8_srmr_nonneg (fun _ => []) (fun _ => [(2 : ℚ)])
    (List.replicate 1024 (0 : ℚ)) 8000 0 h1 h2⟩

/-- The correspondence between a returned report and the unrounded metric
values: every reported value is the rounded metric value, and every verdict
compares the unrounded metric value, not the reported rounded one, against
its fixed threshold. -/
def reportMatchesUnrounded (IL : List ℚ → ℚ) (db he rm : List ℚ → List ℚ)
    (audio : List ℚ) (sr : ℕ) (report : AnalysisReport) : Prop :=
  report.lufs.value = roundTo 2 (check_loudness IL audio sr).1
  ∧ report.lufs.acceptable = decide (-27 < (check_loudness IL audio sr).1
      ∧ (check_loudness IL audio sr).1 < -17)
  ∧ report.lufsRange.value = roundTo 2 (check_loudness IL audio sr).2
  ∧ report.lufsRange.acceptable = decide ((check_loudness IL audio sr).2 < 5)
  ∧ report.interruptions.value = roundTo 3 (check_interruptions db audio sr)
  ∧ report.interruptions.acceptable
      = decide ((0.2 : ℚ) < check_interruptions db audio sr)
  ∧ ∃ s, estimate_srmr_intelligibility he rm audio sr = Except.ok s
      ∧ report.srmr.value = roundTo 2 s
      ∧ report.srmr.acceptable = decide ((3.5 : ℚ) < s)

lemma analyze_audio_spec (IL : List ℚ → ℚ) (db he rm : List ℚ → List ℚ)
    (audio : List ℚ) (sr : ℕ) (report : AnalysisReport)
    (h : analyze_audio IL db he rm audio sr = .ok report) :
    reportMatchesUnrounded IL db he rm audio sr report := by
  unfold analyze_audio at h
  cases hs : estimate_srmr_intelligibility he rm audio sr with
  | error e =>
    rw [hs] at h
    exact absurd h (by simp)
  | ok s =>
    rw [hs] at h
    simp only [Except.ok.injEq] at h
    subst h
    exact ⟨rfl, rfl, rfl, rfl, rfl, rfl, s, hs, rfl, rfl⟩

lemma estimate_error_shape (he rm : List ℚ → List ℚ) (audio : List ℚ)
    (sr : ℕ) (e : AnalysisError)
    (h : estimate_srmr_intelligibility he rm audio sr = .error e) :
    e = .analyzerError "librosa.util.frame: input too short" := by
  unfold estimate_srmr_intelligibility librosaFrame at h
  by_cases hlen : audio.length < 1024
  · rw [if_pos hlen] at h
    simp only [Except.error.injEq] at h
    exact h.symm
  · rw [if_neg hlen] at h
    exact absurd h (by simp)

/- Concrete instantiation used by the rounding counterexamples: a
spectrogram of 404 dB bins of which exactly 81 exceed the mean, so the
interruption ratio is 81/404, strictly above 1/5 but rounding to 1/5. -/

def cBins : List ℚ := List.replicate 81 1 ++ List.replicate 323 (-1)

def cIL : List ℚ → ℚ := fun _ => -20

def cDb : List ℚ → List ℚ := fun _ => cBins

def cHe : List ℚ → List ℚ := fun _ => []

def cRm : List ℚ → List ℚ := fun _ => []

def cAudio : List ℚ := List.replicate 1024 0

def cReport : AnalysisReport :=
  ⟨⟨-20, true⟩, ⟨0, true⟩, ⟨1 / 5, true⟩, ⟨0, false⟩⟩

lemma cBins_sum : cBins.sum = -242 := by
  unfold cBins
  rw [List.sum_append, List.sum_replicate, List.sum_replicate]
  norm_num

lemma cBins_length : cBins.length = 404 := by
  unfold cBins
  rw [List.length_append, List.length_replicate, List.length_replicate]

lemma concrete_interruptions : check_interruptions cDb cAudio 400 = 81 / 404 := by
  unfold check_interruptions cDb
  simp only [cBins_sum, cBins_length]
  have hc : List.countP (fun v => decide ((-242 : ℚ) / (404 : ℕ) < v)) cBins = 81 := by
    unfold cBins
    rw [List.countP_append, countP_replicate, countP_replicate]
    norm_num
  rw [hc]
  norm_num

lemma concrete_loudness : check_loudness cIL cAudio 400 = (-20, 0) := by
  have hlen : cAudio.length = 1024 := by
    unfold cAudio
    rw [List.length_replicate]
  have h : pyRange ((cAudio.length : ℤ) - (3 * 400 : ℕ)) 400 = [] := by
    rw [hlen]
    decide
  unfold check_loudness cIL
  simp only [h]
  simp

lemma concrete_srmr :
    estimate_srmr_intelligibility cHe cRm cAudio 400 = .ok 0 := by
  unfold cHe cRm cAudio
  norm_num [estimate_srmr_intelligibility, librosaFrame, List.range_succ]

lemma concrete_run :
    analyze_audio cIL cDb cHe cRm cAudio 400 = .ok cReport := by
  unfold analyze_audio
  rw [concrete_srmr]
  simp only [concrete_loudness, concrete_interruptions]
  unfold cReport
  norm_num [roundTo]

/-- C1 counterexample: at this concrete input the report marks the
interruption metric acceptable although the value carried in the report
(the rounded 1/5) does not satisfy the strict threshold value > 0.2, so
the verdicts are not characterised by the thresholds applied to the
reported values. -/
theorem C1_counterexample :
    analyze_audio cIL cDb cHe cRm cAudio 400 = .ok cReport
      ∧ cReport.interruptions.acceptable = true
      ∧ ¬((0.2 : ℚ) < cReport.interruptions.value) := by
  refine ⟨concrete_run, rfl, ?_⟩
  norm_num [cReport]

/-- C1 (amended): in every report returned by analyze_audio the verdicts
are true exactly under the fixed thresholds applied to the unrounded
metric values (LUFS in (-27, -17), range < 5, interruptions > 0.2,
SRMR > 3.5), while the values carried in the report are the rounded
metric values. -/
theorem C1_thresholds_on_unrounded (IL : List ℚ → ℚ)
    (db he rm : List ℚ → List ℚ) (audio : List ℚ) (sr : ℕ)
    (report : AnalysisReport)
    (h : analyze_audio IL db he rm audio sr = .ok report) :
    reportMatchesUnrounded IL db he rm audio sr report :=
  analyze_audio_spec IL db he rm audio sr report h

/-- C1 witness: the amended statement applied at the concrete run. -/
theorem C1_thresholds_on_unrounded_witness :
    analyze_audio cIL cDb cHe cRm cAudio 400 = .ok cReport
      ∧ reportMatchesUnrounded cIL cDb cHe cRm cAudio 400 cReport :=
  ⟨concrete_run,
    C1_thresholds_on_unrounded cIL cDb cHe cRm cAudio 400 cReport concrete_run⟩

/-- C2: the code performs no input validation: no input whatsoever, in
particular not the empty buffer and not a non-positive sample rate, makes
the analysis fail with an InvalidInput error; the empty buffer instead
reaches the analyzers and dies inside one of them with a library error. -/
theorem C2_no_invalid_input_validation :
    (∀ (IL : List ℚ → ℚ) (db he rm : List ℚ → List ℚ)
        (audio : List ℚ) (sr : ℕ),
        isInvalidInputResult (analyze_audio IL db he rm audio sr) = false)
      ∧ analyze_audio cIL cDb cHe cRm [] 44100
          = .error (.analyzerError "librosa.util.frame: input too short") := by
  constructor
  · intro IL db he rm audio sr
    unfold analyze_audio
    cases hs : estimate_srmr_intelligibility he rm audio sr with
    | error e =>
      have he2 := estimate_error_shape he rm audio sr e hs
      subst he2
      rfl
    | ok s =>
      rfl
  · have hs : estimate_srmr_intelligibility cHe cRm [] 44100
        = .error (.analyzerError "librosa.util.frame: input too short") := by
      norm_num [estimate_srmr_intelligibility, librosaFrame]
    unfold analyze_audio
    rw [hs]

/-- C9: the analysis is deterministic: two runs on an identical sample
buffer and sample rate that return reports return equal reports (the
embedding is a pure function of the input; the source keeps no state
across calls). -/
theorem C9_deterministic (IL : List ℚ → ℚ) (db he rm : List ℚ → List ℚ)
    (audio : List ℚ) (sr : ℕ) (r₁ r₂ : AnalysisReport)
    (h₁ : analyze_audio IL db he rm audio sr = .ok r₁)
    (h₂ : analyze_audio IL db he rm audio sr = .ok r₂) : r₁ = r₂ := by
  rw [h₁] at h₂
  injection h₂

/-- C9 witness: two runs at the concrete input agree. -/
theorem C9_deterministic_witness :
    analyze_audio cIL cDb cHe cRm cAudio 400 = .ok cReport
      ∧ cReport = cReport :=
  ⟨concrete_run, C9_deterministic cIL cDb cHe cRm cAudio 400 cReport cReport
    concrete_run concrete_run⟩

/-- C10: every verdict is computed from the unrounded metric value while
the reported value is rounded, and consequently there is an input (the
concrete one above, with unrounded interruption ratio 81/404) whose report
carries the interruption value 0.2 with a true verdict although
0.2 > 0.2 fails. -/
theorem C10_flag_from_unrounded_value :
    (∀ (IL : List ℚ → ℚ) (db he rm : List ℚ → List ℚ)
        (audio : List ℚ) (sr : ℕ) (report : AnalysisReport),
        analyze_audio IL db he rm audio sr = .ok report →
          reportMatchesUnrounded IL db he rm audio sr report)
      ∧ analyze_audio cIL cDb cHe cRm cAudio 400 = .ok cReport
      ∧ check_interruptions cDb cAudio 400 = 81 / 404
      ∧ cReport.interruptions.value = (0.2 : ℚ)
      ∧ cReport.interruptions.acceptable = true
      ∧ ¬((0.2 : ℚ) > (0.2 : ℚ)) := by
  refine ⟨analyze_audio_spec, concrete_run, concrete_interruptions, ?_, rfl, by norm_num⟩
  norm_num [cReport]

/-- C10 witness: the universal part applied at the concrete run. -/
theorem C10_flag_from_unrounded_value_witness :
    analyze_audio cIL cDb cHe cRm cAudio 400 = .ok cReport
      ∧ cReport.lufsRange.value = roundTo 2 (check_loudness cIL cAudio 400).2 :=
  ⟨concrete_run,
    (C10_flag_from_unrounded_value.1 cIL cDb cHe cRm cAudio 400 cReport
      concrete_run).2.2.1⟩

end AudioQuality
